import Mathlib

/-!
Shallow embedding of the brewery pipes/nodes core
(`src/brewery/pipes/base.py` and `src/brewery/nodes/base.py`).

Modelling conventions:
- The Python `Queue.Queue` is modelled as a FIFO list of batches
  (`queue : List (List α)`); the blocking behaviour of a bounded queue is a
  concurrency aspect, the functional content (which batches are handed over,
  in which order) is what the list captures.  `queue_size` is kept as data.
- Exceptions become an explicit error type `PyErr`; a method that can raise
  returns `Except PyErr _`.  A method that mutates state and then raises
  (`Node.put`) returns the mutated state together with an optional error.
- Generators (`rows()`, `records()`) are modelled by the sequence they yield
  on a full drain once the producer has flushed.
- A Python `dict` record is an association list; `dict.get` returns `none`
  for an absent key.
-/

namespace Brewery

/-- Errors raised by the modelled Python code. -/
inductive PyErr where
  | exception (msg : String)
  | attributeError
  | nodeFinished
  | notImplementedError
  | runtimeError
deriving DecidableEq, Repr

/-- The external field-list type: `fields.names()` is the ordered list of
field names. -/
structure FieldList where
  names : List String
deriving DecidableEq, Repr

/-- State of a `Pipe` (`pipes/base.py`, class `Pipe`): producer-side batch
buffer, FIFO queue of batches, the `finished` flag set by `flush()` and the
`stop_sending` flag set by `stop()`.  `fields` is the optional field list
inherited from `SimpleDataPipe`. -/
structure Pipe (α : Type) where
  buffer_size : Nat
  queue_size : Nat
  buffer : List α
  queue : List (List α)
  finished : Bool
  stop_sending : Bool
  fields : Option FieldList
deriving DecidableEq, Repr

/-- `Pipe.__init__(buffer_size, queue_size)`: empty buffer, empty queue,
both flags false, fields unset. -/
def Pipe.init (buffer_size queue_size : Nat) : Pipe α :=
  { buffer_size := buffer_size
    queue_size := queue_size
    buffer := []
    queue := []
    finished := false
    stop_sending := false
    fields := none }

/-- `Pipe._send_buffer`: if `stop_sending` do nothing, otherwise hand the
current buffer to the queue as one batch. -/
def Pipe.send_buffer (p : Pipe α) : Pipe α :=
  if p.stop_sending then p
  else { p with queue := p.queue ++ [p.buffer] }

/-- `Pipe.put(obj)`: silently return when `stop_sending`; otherwise append
`obj` to the buffer, and when the buffer has reached `buffer_size` hand it
over via `_send_buffer` and start a new empty buffer. -/
def Pipe.put (p : Pipe α) (obj : α) : Pipe α :=
  if p.stop_sending then p
  else
    let p1 : Pipe α := { p with buffer := p.buffer ++ [obj] }
    if p1.buffer_size ≤ p1.buffer.length then
      { p1.send_buffer with buffer := [] }
    else p1

/-- `Pipe.flush()`: `self._send_buffer(); self.finished = True`.  Note that
the buffer is not cleared. -/
def Pipe.flush (p : Pipe α) : Pipe α :=
  { p.send_buffer with finished := true }

/-- The `while True: get_nowait()` loop in `Pipe.stop()`: removes queued
batches one at a time until the queue is empty. -/
def drain_loop : List (List α) → List (List α)
  | [] => []
  | _ :: rest => drain_loop rest

/-- `Pipe.stop()`: set `stop_sending = True` first, then drain the queue
with `get_nowait` until `Queue.Empty`. -/
def Pipe.stop (p : Pipe α) : Pipe α :=
  let p1 : Pipe α := { p with stop_sending := true }
  { p1 with queue := drain_loop p1.queue }

/-- The row sequence the consumer observes from `Pipe.rows()` on a full
drain after the producer has finished: each queued batch yielded in arrival
order. -/
def rows_drain : List (List α) → List α
  | [] => []
  | b :: rest => b ++ rows_drain rest

/-- A sequence of `put` calls, left to right. -/
def Pipe.putList (p : Pipe α) (objs : List α) : Pipe α :=
  objs.foldl Pipe.put p

/-- `dict.get(field)` on an association-list record: first binding wins,
`none` when the key is absent. -/
def record_get (record : List (String × V)) (field : String) : Option V :=
  match record with
  | [] => none
  | (k, v) :: rest => if k = field then some v else record_get rest field

/-- The row-building loop of `SimpleDataPipe.put_record`:
`row = []; for field in fields.names(): row.append(record.get(field))`. -/
def build_row (names : List String) (record : List (String × V)) : List (Option V) :=
  names.foldl (fun row field => row ++ [record_get record field]) []

/-- `Pipe.records()` drained fully: raises when the field list is unset,
otherwise yields `dict(zip(fields, row))` for each row. -/
def Pipe.records (p : Pipe (List V)) : Except PyErr (List (List (String × V))) :=
  match p.fields with
  | none =>
    Except.error (PyErr.exception
      "Can not provide records: fields for pipe are not initialized.")
  | some fl => Except.ok ((rows_drain p.queue).map (fun row => fl.names.zip row))

/-- `SimpleDataPipe.put_record(record)` as inherited by `Pipe`: accessing
`self.fields.names()` with `fields = None` raises `AttributeError`;
otherwise the built row is `put`. -/
def Pipe.put_record (p : Pipe (List (Option V))) (record : List (String × V)) :
    Except PyErr (Pipe (List (Option V))) :=
  match p.fields with
  | none => Except.error PyErr.attributeError
  | some fl => Except.ok (p.put (build_row fl.names record))

/-- The loop of `Node.put`: write to each output that is not closed for
write, counting the active outputs.  Returns the updated outputs and the
count. -/
def node_put_loop (obj : α) : List (Pipe α) → List (Pipe α) × Nat
  | [] => ([], 0)
  | output :: rest =>
    let r := node_put_loop obj rest
    if output.stop_sending then (output :: r.1, r.2)
    else (output.put obj :: r.1, r.2 + 1)

/-- `Node.put(obj)`: after the write loop, raise `NodeFinished` when no
output was active.  The outputs written before the raise are kept. -/
def Node.put (outputs : List (Pipe α)) (obj : α) : List (Pipe α) × Option PyErr :=
  let r := node_put_loop obj outputs
  if r.2 = 0 then (r.1, some PyErr.nodeFinished) else (r.1, none)

/-- `Node.put_record(obj)`: `for output in self.outputs: output.put_record(obj)`,
with no check of any output state and no completion signal; the first
exception from an output propagates. -/
def node_put_record (record : List (String × V)) :
    List (Pipe (List (Option V))) → Except PyErr (List (Pipe (List (Option V))))
  | [] => Except.ok []
  | output :: rest =>
    match output.put_record record with
    | Except.error e => Except.error e
    | Except.ok o2 =>
      match node_put_record record rest with
      | Except.error e => Except.error e
      | Except.ok rest2 => Except.ok (o2 :: rest2)

/-- Node connection state: ordered input and output pipe lists. -/
structure NodeState (α : Type) where
  inputs : List (Pipe α)
  outputs : List (Pipe α)
deriving Repr

/-- `SourceNode.add_input(pipe)`: always raises. -/
def SourceNode.add_input (node : NodeState α) (pipe : Pipe α) :
    Except PyErr (NodeState α) :=
  Except.error (PyErr.exception "Should not add input pipe to a source node")

/-- `TargetNode.add_output(pipe)`: always raises `RuntimeError`. -/
def TargetNode.add_output (node : NodeState α) (pipe : Pipe α) :
    Except PyErr (NodeState α) :=
  Except.error PyErr.runtimeError

/-- `TargetNode.output_fields`: always raises `RuntimeError`. -/
def TargetNode.output_fields (node : NodeState α) : Except PyErr FieldList :=
  Except.error PyErr.runtimeError

/-- A concrete pipe with field list `["a", "b"]`, used to instantiate
record-path theorems. -/
def pipe_ab : Pipe (List (Option Nat)) :=
  { Pipe.init 3 1 with fields := some (FieldList.mk ["a", "b"]) }

/-- A concrete output pipe that is closed for write but has its field list
set, used to instantiate `Node.put_record` theorems. -/
def stopped_out : Pipe (List (Option Nat)) :=
  { Pipe.init 4 1 with stop_sending := true, fields := some (FieldList.mk ["a"]) }

/- ### Helper lemmas -/

theorem rows_drain_append (a b : List (List α)) :
    rows_drain (a ++ b) = rows_drain a ++ rows_drain b := by
  induction a with
  | nil => rfl
  | cons x xs ih => simp [rows_drain, ih]

theorem drain_loop_eq_nil (l : List (List α)) : drain_loop l = [] := by
  induction l with
  | nil => rfl
  | cons x xs ih => simpa [drain_loop] using ih

/-- One `put` on a pipe that is not closed for write: the flags and the
batch size are preserved, and the multiset of rows held by the pipe (queued
batches followed by the open buffer) grows by exactly the new row at the
end. -/
theorem put_inv (p : Pipe α) (h : p.stop_sending = false) (obj : α) :
    (p.put obj).stop_sending = false ∧
    (p.put obj).finished = p.finished ∧
    rows_drain (p.put obj).queue ++ (p.put obj).buffer
      = rows_drain p.queue ++ p.buffer ++ [obj] := by
  simp only [Pipe.put, Pipe.send_buffer, h]
  split
  · simp_all
  · split
    · simp [rows_drain_append, rows_drain]
    · simp

/-- `putList` invariant: a sequence of `put` calls on a pipe open for write
appends exactly the put rows, in order, to the rows held by the pipe. -/
theorem putList_inv (objs : List α) : ∀ (p : Pipe α), p.stop_sending = false →
    (p.putList objs).stop_sending = false ∧
    (p.putList objs).finished = p.finished ∧
    rows_drain (p.putList objs).queue ++ (p.putList objs).buffer
      = rows_drain p.queue ++ p.buffer ++ objs := by
  induction objs with
  | nil => intro p h; simpa [Pipe.putList] using h
  | cons x xs ih =>
    intro p h
    have h1 := put_inv p h x
    have h2 := ih (p.put x) h1.1
    have hfold : p.putList (x :: xs) = (p.put x).putList xs := rfl
    refine ⟨hfold ▸ h2.1, hfold ▸ (h2.2.1.trans h1.2.1), ?_⟩
    rw [hfold, h2.2.2, h1.2.2]
    simp

/-- The write loop of `Node.put`: every output not closed for write receives
the row, every closed output is untouched, and the active count is the
number of outputs minus the number of closed ones. -/
theorem node_put_loop_spec (obj : α) (outputs : List (Pipe α)) :
    node_put_loop obj outputs
      = (outputs.map (fun o => if o.stop_sending then o else o.put obj),
         outputs.length - (outputs.filter (fun o => o.stop_sending)).length) := by
  induction outputs with
  | nil => rfl
  | cons o rest ih =>
    have hle := List.length_filter_le (fun o : Pipe α => o.stop_sending) rest
    by_cases hs : o.stop_sending = true
    · simp [node_put_loop, ih, hs]
    · simp [node_put_loop, ih, hs]
      omega

/-- The row built by `put_record`: the fold over field names equals the map
of `record.get` over the names, in order. -/
theorem build_row_eq_map (record : List (String × V)) (names : List String) :
    build_row names record = names.map (record_get record) := by
  suffices h : ∀ acc : List (Option V),
      names.foldl (fun row field => row ++ [record_get record field]) acc
        = acc ++ names.map (record_get record) by
    simpa [build_row] using h []
  induction names with
  | nil => intro acc; simp
  | cons n ns ih => intro acc; simp [ih]

/-- `record_get` yields `none` exactly on keys absent from the record. -/
theorem record_get_absent (record : List (String × V)) (field : String)
    (h : ∀ kv ∈ record, kv.1 ≠ field) : record_get record field = none := by
  induction record with
  | nil => rfl
  | cons kv rest ih =>
    have hk : kv.1 ≠ field := h kv (by simp)
    simp only [record_get]
    rw [if_neg hk]
    exact ih (fun kv hkv => h kv (by simp [hkv]))

/- ### Claim theorems -/

/-- C1: for every sequence of `put` calls on a freshly created `Pipe` with
any capacity `C` and queue depth `qs`, a single `flush` followed by a full
drain of the consumer's row sequence yields exactly the rows passed to
`put`, in the same order, with no row lost and none duplicated. -/
theorem put_flush_drain_exact (C qs : Nat) (objs : List α) :
    rows_drain ((((Pipe.init C qs : Pipe α)).putList objs).flush).queue = objs := by
  have h := putList_inv objs (Pipe.init C qs : Pipe α) rfl
  simp only [Pipe.flush, Pipe.send_buffer, h.1]
  simp only [Bool.false_eq_true, if_false]
  have h3 := h.2.2
  simp only [Pipe.init, rows_drain] at h3
  simpa [rows_drain_append, rows_drain] using h3

/-- C2: `Node.put` on a node with `N` outputs of which `M` are closed for
write delivers the row to exactly the `N − M` open outputs (each open
output receives the `put`, each closed one is untouched), and raises the
`NodeFinished` signal if and only if `M = N`, including `N = 0`. -/
theorem node_put_delivery (outputs : List (Pipe α)) (obj : α) :
    (Node.put outputs obj).1
      = outputs.map (fun o => if o.stop_sending then o else o.put obj) ∧
    (node_put_loop obj outputs).2
      = outputs.length - (outputs.filter (fun o => o.stop_sending)).length ∧
    ((Node.put outputs obj).2 = some PyErr.nodeFinished ↔
      (outputs.filter (fun o => o.stop_sending)).length = outputs.length) := by
  have hs := node_put_loop_spec obj outputs
  have hle := List.length_filter_le (fun o : Pipe α => o.stop_sending) outputs
  refine ⟨?_, by rw [hs], ?_⟩
  · simp [Node.put, hs]
    split <;> rfl
  · have hiff : (Node.put outputs obj).2 = some PyErr.nodeFinished ↔
        outputs.length - (outputs.filter (fun o => o.stop_sending)).length = 0 := by
      simp only [Node.put, hs]
      split
      · simp [*]
      · simp [*]
    rw [hiff]
    omega

/-- C3: on a pipe whose `stop_sending` flag is set, `put` is a silent
no-op: the state is unchanged, so the row is neither buffered nor ever
handed to the consumer. -/
theorem put_after_stop_noop (p : Pipe α) (obj : α) (h : p.stop_sending = true) :
    p.put obj = p ∧ (p.put obj).buffer = p.buffer ∧ (p.put obj).queue = p.queue := by
  have hne : p.put obj = p := by simp [Pipe.put, h]
  exact ⟨hne, by rw [hne], by rw [hne]⟩

/-- C3 witness: a concretely stopped pipe ignores a subsequent `put`. -/
theorem put_after_stop_noop_witness :
    ((Pipe.init 2 1 : Pipe Nat)).stop.put 5 = ((Pipe.init 2 1 : Pipe Nat)).stop ∧
    (((Pipe.init 2 1 : Pipe Nat)).stop.put 5).buffer
      = ((Pipe.init 2 1 : Pipe Nat)).stop.buffer ∧
    (((Pipe.init 2 1 : Pipe Nat)).stop.put 5).queue
      = ((Pipe.init 2 1 : Pipe Nat)).stop.queue :=
  put_after_stop_noop ((Pipe.init 2 1 : Pipe Nat)).stop 5 (by decide)

/-- C4: `stop()` sets the closed-for-write flag, drains and discards every
queued batch so that zero entries remain outstanding, and every subsequent
`put` is a no-op. -/
theorem stop_sets_flag_and_drains (p : Pipe α) (obj : α) :
    (p.stop).stop_sending = true ∧
    (p.stop).queue = [] ∧
    (p.stop).queue.length = 0 ∧
    (p.stop).put obj = p.stop := by
  have hq : (p.stop).queue = [] := drain_loop_eq_nil p.queue
  refine ⟨rfl, hq, by rw [hq]; rfl, ?_⟩
  exact (put_after_stop_noop p.stop obj rfl).1

/-- C5 counterexample: on a fresh pipe with capacity 1, `flush` leaves one
(empty) batch in the queue, and a subsequent `put` hands a second batch
`[5]` to the queue — so batches are still produced after `flush`. -/
theorem flush_not_final_counterexample :
    (((Pipe.init 1 1 : Pipe Nat)).flush).queue = [[]] ∧
    ((((Pipe.init 1 1 : Pipe Nat)).flush).put 5).queue = [[], [5]] := by
  constructor <;> rfl

/-- C5 amended: `flush` sets `finished` but `put` never consults that flag;
a later `put` that fills the buffer still hands a batch to the queue.
Batches stop being handed over only once `stop_sending` is set. -/
theorem flush_sets_finished_put_unchecked (p : Pipe α) (obj : α) :
    (p.flush).finished = true ∧
    (p.stop_sending = true → (p.flush).put obj = p.flush) ∧
    (p.stop_sending = false → p.buffer_size ≤ p.buffer.length + 1 →
      ((p.flush).put obj).queue = (p.flush).queue ++ [p.buffer ++ [obj]]) := by
  refine ⟨rfl, ?_, ?_⟩
  · intro h
    have hf : (p.flush).stop_sending = true := by
      simp [Pipe.flush, Pipe.send_buffer, h]
    exact (put_after_stop_noop p.flush obj hf).1
  · intro h hfill
    have hflush : p.flush = { p with queue := p.queue ++ [p.buffer], finished := true } := by
      simp [Pipe.flush, Pipe.send_buffer, h]
    rw [hflush]
    simp [Pipe.put, Pipe.send_buffer, h, hfill]

/-- C5 amended witness: on a fresh capacity-1 pipe, `flush` marks the pipe
finished and a later `put 5` still enqueues the batch `[5]`. -/
theorem flush_sets_finished_put_unchecked_witness :
    (((Pipe.init 1 1 : Pipe Nat)).flush).finished = true ∧
    ((((Pipe.init 1 1 : Pipe Nat)).flush).put 5).queue
      = (((Pipe.init 1 1 : Pipe Nat)).flush).queue
        ++ [(Pipe.init 1 1 : Pipe Nat).buffer ++ [5]] := by
  have h := flush_sets_finished_put_unchecked (Pipe.init 1 1 : Pipe Nat) 5
  exact ⟨h.1, h.2.2 rfl (by decide)⟩

/-- C6: on a pipe whose field list is not set, the record-view read
(`records`) and the record-view write (`put_record`) both fail with an
error caused by the missing field configuration, and no record or row is
produced or delivered. -/
theorem records_require_fields (p : Pipe (List (Option V)))
    (record : List (String × V)) (h : p.fields = none) :
    p.records = Except.error (PyErr.exception
      "Can not provide records: fields for pipe are not initialized.") ∧
    p.put_record record = Except.error PyErr.attributeError := by
  constructor
  · simp [Pipe.records, h]
  · simp [Pipe.put_record, h]

/-- C6 witness: a fresh pipe has no field list, and both record-view calls
fail on it. -/
theorem records_require_fields_witness :
    (Pipe.init 3 1 : Pipe (List (Option Nat))).records
      = Except.error (PyErr.exception
        "Can not provide records: fields for pipe are not initialized.") ∧
    (Pipe.init 3 1 : Pipe (List (Option Nat))).put_record [("a", 1)]
      = Except.error PyErr.attributeError :=
  records_require_fields (Pipe.init 3 1 : Pipe (List (Option Nat))) [("a", 1)] rfl

/-- C7: on a pipe with a set field list, `put_record` builds the row by
looking up each field name of the field list in order — absent names
yielding the null value — and `put`s that row. -/
theorem put_record_builds_row (p : Pipe (List (Option V))) (fl : FieldList)
    (record : List (String × V)) (h : p.fields = some fl) :
    p.put_record record = Except.ok (p.put (fl.names.map (record_get record))) ∧
    ∀ field, (∀ kv ∈ record, kv.1 ≠ field) → record_get record field = none := by
  constructor
  · simp [Pipe.put_record, h, build_row_eq_map]
  · exact fun field hf => record_get_absent record field hf

/-- C7 witness: with field list `["a", "b"]` and record `{"a": 5}`, the row
is built in field order and the absent name `"b"` maps to the null value. -/
theorem put_record_builds_row_witness :
    pipe_ab.put_record [("a", 5)]
      = Except.ok (pipe_ab.put
          ((FieldList.mk ["a", "b"]).names.map (record_get [("a", 5)]))) ∧
    record_get [("a", (5 : Nat))] "b" = none := by
  have h := put_record_builds_row pipe_ab (FieldList.mk ["a", "b"]) [("a", 5)] rfl
  exact ⟨h.1, h.2 "b" (by decide)⟩

/-- C8: `SourceNode.add_input` fails for every pipe argument, and on a
`TargetNode` both `add_output` and reading `output_fields` always fail. -/
theorem source_target_static_guards (node : NodeState α) (pipe : Pipe α) :
    SourceNode.add_input node pipe
      = Except.error (PyErr.exception "Should not add input pipe to a source node") ∧
    TargetNode.add_output node pipe = Except.error PyErr.runtimeError ∧
    TargetNode.output_fields node = Except.error PyErr.runtimeError :=
  ⟨rfl, rfl, rfl⟩

/-- C9: `flush` does not clear the producer-side buffer; after a mid-stream
flush, a `put` that fills the buffer again enqueues the old buffer contents
a second time, so a full drain observes those rows twice. -/
theorem flush_midstream_duplicates (p : Pipe α) (obj : α)
    (h : p.stop_sending = false) (hfill : p.buffer_size ≤ p.buffer.length + 1) :
    (p.flush).buffer = p.buffer ∧
    rows_drain ((p.flush).put obj).queue
      = rows_drain p.queue ++ p.buffer ++ (p.buffer ++ [obj]) := by
  have hflush : p.flush = { p with queue := p.queue ++ [p.buffer], finished := true } := by
    simp [Pipe.flush, Pipe.send_buffer, h]
  rw [hflush]
  constructor
  · rfl
  · simp [Pipe.put, Pipe.send_buffer, h, hfill, rows_drain_append, rows_drain]

/-- C9 witness: put 7 (buffer not yet full), flush mid-stream, then put 8;
the drained row sequence is `[7, 7, 8]` — row 7 is observed twice. -/
theorem flush_midstream_duplicates_witness :
    ((((Pipe.init 2 1 : Pipe Nat)).put 7).flush).buffer
      = (((Pipe.init 2 1 : Pipe Nat)).put 7).buffer ∧
    rows_drain (((((Pipe.init 2 1 : Pipe Nat)).put 7).flush).put 8).queue
      = rows_drain (((Pipe.init 2 1 : Pipe Nat)).put 7).queue
        ++ (((Pipe.init 2 1 : Pipe Nat)).put 7).buffer
        ++ ((((Pipe.init 2 1 : Pipe Nat)).put 7).buffer ++ [8]) :=
  flush_midstream_duplicates (((Pipe.init 2 1 : Pipe Nat)).put 7) 8
    (by decide) (by decide)

/-- C10: `Node.put_record` never raises the `NodeFinished` signal, and when
every output has its field list set it issues the record write to every
output pipe — consulting no output's closed-for-write state — even when all
outputs are stopped or the node has no outputs. -/
theorem node_put_record_unconditional (record : List (String × V))
    (outputs : List (Pipe (List (Option V)))) :
    node_put_record record outputs ≠ Except.error PyErr.nodeFinished ∧
    ((∀ o ∈ outputs, o.fields ≠ none) →
      node_put_record record outputs
        = Except.ok (outputs.map (fun o =>
            match o.fields with
            | none => o
            | some fl => o.put (build_row fl.names record)))) := by
  induction outputs with
  | nil => exact ⟨by simp [node_put_record], fun _ => rfl⟩
  | cons o rest ih =>
    constructor
    · cases hf : o.fields with
      | none => simp [node_put_record, Pipe.put_record, hf]
      | some fl =>
        simp only [node_put_record, Pipe.put_record, hf]
        cases hr : node_put_record record rest with
        | error e =>
          have := ih.1
          rw [hr] at this
          simpa [hr] using fun hcontra => this (by rw [hcontra])
        | ok rest2 => simp
    · intro hall
      have hf : o.fields ≠ none := hall o (by simp)
      cases hfs : o.fields with
      | none => exact absurd hfs hf
      | some fl =>
        have hrest := ih.2 (fun o2 ho2 => hall o2 (by simp [ho2]))
        simp [node_put_record, Pipe.put_record, hfs, hrest]

/-- C10 witness: with two outputs, both closed for write (M = N = 2), the
record write succeeds on every output and no `NodeFinished` is raised. -/
theorem node_put_record_unconditional_witness :
    node_put_record [("a", (1 : Nat))] [stopped_out, stopped_out]
      ≠ Except.error PyErr.nodeFinished ∧
    node_put_record [("a", (1 : Nat))] [stopped_out, stopped_out]
      = Except.ok ([stopped_out, stopped_out].map (fun o =>
          match o.fields with
          | none => o
          | some fl => o.put (build_row fl.names [("a", (1 : Nat))]))) := by
  have h := node_put_record_unconditional [("a", (1 : Nat))] [stopped_out, stopped_out]
  exact ⟨h.1, h.2 (by decide)⟩

end Brewery
